import Mathlib

/-!
Verification of the client-side session and preference persistence layer
(`lib/cookies.ts`, `lib/auth.ts`, `lib/preferences.ts`) of the
nvidia-spark-monitoring frontend, shallowly embedded in Lean.
-/

-- The arithmetic of `ℚ` is used to model JS numbers; its operations are
-- `@[irreducible]` by default, which would keep concrete evaluations from
-- reducing, so they are unsealed for this development.
unseal Rat.add Rat.mul Rat.inv Rat.sub Rat.ofScientific

namespace SparkMon

/-- A storage backend (document.cookie jar or localStorage) as a partial
map from key to value. -/
def StoreMap : Type := String → Option String

/-- Empty store. -/
def StoreMap.emp : StoreMap := fun _ => none

/-- Write a key (models `localStorage.setItem` / a cookie-jar insert). -/
def StoreMap.put (m : StoreMap) (k v : String) : StoreMap :=
  fun k' => if k' = k then some v else m k'

/-- Delete a key (models `localStorage.removeItem` / cookie expiry in the past). -/
def StoreMap.del (m : StoreMap) (k : String) : StoreMap :=
  fun k' => if k' = k then none else m k'

/-!
## Environment primitives: UTF-8, percent-encoding

The browser primitives `encodeURIComponent` / `decodeURIComponent` (used by
`setCookie` / `getCookie` in `lib/cookies.ts`) are embedded concretely.
Bytes are `Nat` values below 256 and code points are `Nat`, written with
arithmetic (`/ 64`, `% 64`, `+`) rather than bit operations.
-/

/-- UTF-8 encoding of a Unicode code point as a list of byte values. -/
def utf8EncodeCp (n : Nat) : List Nat :=
  if n < 0x80 then [n]
  else if n < 0x800 then [0xC0 + n / 64, 0x80 + n % 64]
  else if n < 0x10000 then [0xE0 + n / 4096, 0x80 + n / 64 % 64, 0x80 + n % 64]
  else [0xF0 + n / 262144, 0x80 + n / 4096 % 64, 0x80 + n / 64 % 64, 0x80 + n % 64]

/-- State-machine UTF-8 decoder.  `need` is the number of continuation bytes
still expected, `acc` the partial code point, `mn` the smallest code point
the current sequence is allowed to produce (rejecting overlong encodings).
Surrogates and code points above U+10FFFF are rejected, as is any malformed
lead or continuation byte — exactly the sequences a strict UTF-8 decoder
(as used by `decodeURIComponent`) rejects. -/
def utf8Go : List Nat → Nat → Nat → Nat → Option (List Nat)
  | [], need, _, _ => if need = 0 then some [] else none
  | b :: rest, need, acc, mn =>
    if need = 0 then
      if b < 0x80 then (utf8Go rest 0 0 0).map (b :: ·)
      else if b < 0xC2 then none
      else if b < 0xE0 then utf8Go rest 1 (b - 0xC0) 0x80
      else if b < 0xF0 then utf8Go rest 2 (b - 0xE0) 0x800
      else if b < 0xF5 then utf8Go rest 3 (b - 0xF0) 0x10000
      else none
    else
      if 0x80 ≤ b ∧ b < 0xC0 then
        if need = 1 then
          if mn ≤ acc * 64 + (b - 0x80) ∧
              ¬ (0xD800 ≤ acc * 64 + (b - 0x80) ∧ acc * 64 + (b - 0x80) < 0xE000) ∧
              acc * 64 + (b - 0x80) < 0x110000 then
            (utf8Go rest 0 0 0).map ((acc * 64 + (b - 0x80)) :: ·)
          else none
        else utf8Go rest (need - 1) (acc * 64 + (b - 0x80)) mn
      else none

/-- UTF-8 decoding of a byte list into code points; `none` on malformed input. -/
def utf8Decode (bs : List Nat) : Option (List Nat) := utf8Go bs 0 0 0

/-- UTF-8 byte sequence of a character list. -/
def utf8EncodeChars (cs : List Char) : List Nat :=
  cs.flatMap fun c => utf8EncodeCp c.toNat

theorem utf8Decode_encodeCp_append (n : Nat)
    (hv : n < 0xD800 ∨ (0xE000 ≤ n ∧ n < 0x110000)) (rest : List Nat) :
    utf8Decode (utf8EncodeCp n ++ rest) = (utf8Decode rest).map (n :: ·) := by
  unfold utf8Decode
  by_cases h1 : n < 0x80
  · simp only [utf8EncodeCp, if_pos h1, List.cons_append, List.nil_append]
    simp [utf8Go, h1]
  · by_cases h2 : n < 0x800
    · have e1 : ¬ (0xC0 + n / 64 < 0x80) := by omega
      have e2 : ¬ (0xC0 + n / 64 < 0xC2) := by omega
      have e3 : 0xC0 + n / 64 < 0xE0 := by omega
      have e4 : 0x80 ≤ 0x80 + n % 64 := by omega
      have e5 : 0x80 + n % 64 < 0xC0 := by omega
      have key : (0xC0 + n / 64 - 0xC0) * 64 + (0x80 + n % 64 - 0x80) = n := by omega
      have s1 : 0x80 ≤ n := by omega
      have s2 : ¬ (0xD800 ≤ n ∧ n < 0xE000) := by omega
      have s3 : n < 0x110000 := by omega
      simp only [utf8EncodeCp, if_neg h1, if_pos h2, List.cons_append, List.nil_append]
      simp only [utf8Go]
      simp [e1, e2, e3, e4, e5]
      rw [show n / 64 * 64 + n % 64 = n by omega]
      rw [if_pos (by omega)]
    · by_cases h3 : n < 0x10000
      · have e1 : ¬ (0xE0 + n / 4096 < 0x80) := by omega
        have e2 : ¬ (0xE0 + n / 4096 < 0xC2) := by omega
        have e3 : ¬ (0xE0 + n / 4096 < 0xE0) := by omega
        have e4 : 0xE0 + n / 4096 < 0xF0 := by omega
        have e5 : 0x80 ≤ 0x80 + n / 64 % 64 := by omega
        have e6 : 0x80 + n / 64 % 64 < 0xC0 := by omega
        have e7 : 0x80 ≤ 0x80 + n % 64 := by omega
        have e8 : 0x80 + n % 64 < 0xC0 := by omega
        have key : ((0xE0 + n / 4096 - 0xE0) * 64 + (0x80 + n / 64 % 64 - 0x80)) * 64 +
            (0x80 + n % 64 - 0x80) = n := by omega
        have s1 : 0x800 ≤ n := by omega
        have s2 : ¬ (0xD800 ≤ n ∧ n < 0xE000) := by omega
        have s3 : n < 0x110000 := by omega
        simp only [utf8EncodeCp, if_neg h1, if_neg h2, if_pos h3, List.cons_append,
          List.nil_append]
        simp only [utf8Go]
        simp [e1, e2, e3, e4, e5, e6, e7, e8]
        rw [show (n / 4096 * 64 + n / 64 % 64) * 64 + n % 64 = n by omega]
        rw [if_pos (by omega)]
      · have e1 : ¬ (0xF0 + n / 262144 < 0x80) := by omega
        have e2 : ¬ (0xF0 + n / 262144 < 0xC2) := by omega
        have e3 : ¬ (0xF0 + n / 262144 < 0xE0) := by omega
        have e4 : ¬ (0xF0 + n / 262144 < 0xF0) := by omega
        have e5 : 0xF0 + n / 262144 < 0xF5 := by omega
        have e6 : 0x80 ≤ 0x80 + n / 4096 % 64 := by omega
        have e7 : 0x80 + n / 4096 % 64 < 0xC0 := by omega
        have e8 : 0x80 ≤ 0x80 + n / 64 % 64 := by omega
        have e9 : 0x80 + n / 64 % 64 < 0xC0 := by omega
        have e10 : 0x80 ≤ 0x80 + n % 64 := by omega
        have e11 : 0x80 + n % 64 < 0xC0 := by omega
        have key : (((0xF0 + n / 262144 - 0xF0) * 64 + (0x80 + n / 4096 % 64 - 0x80)) * 64 +
            (0x80 + n / 64 % 64 - 0x80)) * 64 + (0x80 + n % 64 - 0x80) = n := by omega
        have s1 : 0x10000 ≤ n := by omega
        have s2 : ¬ (0xD800 ≤ n ∧ n < 0xE000) := by omega
        have s3 : n < 0x110000 := by omega
        simp only [utf8EncodeCp, if_neg h1, if_neg h2, if_neg h3, List.cons_append,
          List.nil_append]
        simp only [utf8Go]
        simp [e1, e2, e3, e4, e5, e6, e7, e8, e9, e10, e11]
        rw [show ((n / 262144 * 64 + n / 4096 % 64) * 64 + n / 64 % 64) * 64 + n % 64 = n
          by omega]
        rw [if_pos (by omega)]

theorem utf8Decode_encodeChars (cs : List Char) :
    utf8Decode (utf8EncodeChars cs) = some (cs.map Char.toNat) := by
  induction cs with
  | nil => rfl
  | cons c cs ih =>
    have hv : c.toNat < 0xD800 ∨ (0xE000 ≤ c.toNat ∧ c.toNat < 0x110000) := c.valid
    calc utf8Decode (utf8EncodeChars (c :: cs))
        = utf8Decode (utf8EncodeCp c.toNat ++ utf8EncodeChars cs) := by
          simp [utf8EncodeChars]
      _ = (utf8Decode (utf8EncodeChars cs)).map (c.toNat :: ·) :=
          utf8Decode_encodeCp_append c.toNat hv _
      _ = some ((c :: cs).map Char.toNat) := by rw [ih]; simp

theorem utf8EncodeCp_lt_256 (n : Nat) (hn : n < 0x110000) :
    ∀ b ∈ utf8EncodeCp n, b < 256 := by
  intro b hb
  unfold utf8EncodeCp at hb
  split at hb
  · simp at hb; omega
  · split at hb
    · simp at hb; rcases hb with h | h <;> omega
    · split at hb
      · simp at hb; rcases hb with h | h | h <;> omega
      · simp at hb; rcases hb with h | h | h | h <;> omega

/-!
The `encodeURIComponent` / `decodeURIComponent` pair (ECMA-262 §19.2).
`encodeURIComponent` leaves the `uriUnescaped` code units alone and
percent-escapes the UTF-8 bytes of every other character with uppercase
hex digits; `decodeURIComponent` maps `%XY` escapes (any hex case) to
bytes, takes other characters' UTF-8 bytes verbatim, and UTF-8-decodes
the resulting byte sequence, failing (a thrown `URIError`, modelled as
`none`) on malformed escapes or invalid UTF-8.  Decoding the whole byte
buffer at once is equivalent to ECMA's run-by-run decoding because a
literal character never contributes a leading continuation byte. -/

/-- The `uriUnescaped` set: ASCII alphanumerics and `- _ . ! ~ * ' ( )`. -/
def isUriUnescaped (c : Char) : Bool :=
  (65 ≤ c.toNat ∧ c.toNat ≤ 90) ∨ (97 ≤ c.toNat ∧ c.toNat ≤ 122) ∨
  (48 ≤ c.toNat ∧ c.toNat ≤ 57) ∨
  c.toNat = 45 ∨ c.toNat = 95 ∨ c.toNat = 46 ∨ c.toNat = 33 ∨ c.toNat = 126 ∨
  c.toNat = 42 ∨ c.toNat = 39 ∨ c.toNat = 40 ∨ c.toNat = 41

/-- Uppercase hexadecimal digit character for a value below 16. -/
def hexDigitChar (d : Nat) : Char :=
  if d < 10 then Char.ofNat (48 + d) else Char.ofNat (55 + d)

/-- Value of a hexadecimal digit character, either case; `none` otherwise. -/
def hexDigitVal (c : Char) : Option Nat :=
  if 48 ≤ c.toNat ∧ c.toNat ≤ 57 then some (c.toNat - 48)
  else if 65 ≤ c.toNat ∧ c.toNat ≤ 70 then some (c.toNat - 55)
  else if 97 ≤ c.toNat ∧ c.toNat ≤ 102 then some (c.toNat - 87)
  else none

def encodeURIComponentChars (cs : List Char) : List Char :=
  cs.flatMap fun c =>
    if isUriUnescaped c then [c]
    else (utf8EncodeCp c.toNat).flatMap fun b =>
      ['%', hexDigitChar (b / 16), hexDigitChar (b % 16)]

/-- The browser's `encodeURIComponent`. -/
def encodeURIComponent (s : String) : String := ⟨encodeURIComponentChars s.data⟩

/-- Percent-unescaping state machine: `mode 0` expects a literal or `%`,
`mode 1` the first hex digit, `mode 2` (with `d` the first digit's value)
the second. Produces the byte sequence the escaped string denotes. -/
def pctGo : List Char → Nat → Nat → Option (List Nat)
  | [], mode, _ => if mode = 0 then some [] else none
  | c :: rest, mode, d =>
    if mode = 0 then
      if c = '%' then pctGo rest 1 0
      else (pctGo rest 0 0).map (utf8EncodeCp c.toNat ++ ·)
    else
      match hexDigitVal c with
      | some v => if mode = 1 then pctGo rest 2 v else (pctGo rest 0 0).map ((d * 16 + v) :: ·)
      | none => none

/-- The browser's `decodeURIComponent`; `none` models a thrown `URIError`. -/
def decodeURIComponent (s : String) : Option String :=
  match pctGo s.data 0 0 with
  | none => none
  | some bs =>
    match utf8Decode bs with
    | none => none
    | some cps => some ⟨cps.map Char.ofNat⟩

theorem hexDigitVal_hexDigitChar (d : Nat) (h : d < 16) :
    hexDigitVal (hexDigitChar d) = some d := by
  interval_cases d <;> rfl

theorem pctGo_escape (b : Nat) (hb : b < 256) (rest : List Char) :
    pctGo ('%' :: hexDigitChar (b / 16) :: hexDigitChar (b % 16) :: rest) 0 0
      = (pctGo rest 0 0).map (b :: ·) := by
  have h1 := hexDigitVal_hexDigitChar (b / 16) (by omega)
  have h2 := hexDigitVal_hexDigitChar (b % 16) (by omega)
  have h3 : b / 16 * 16 + b % 16 = b := by omega
  simp [pctGo, h1, h2, h3]

theorem pctGo_unescaped (c : Char) (hc : isUriUnescaped c = true) (rest : List Char) :
    pctGo (c :: rest) 0 0 = (pctGo rest 0 0).map (c.toNat :: ·) := by
  have hlt : c.toNat < 0x80 ∧ c.toNat ≠ 37 := by
    unfold isUriUnescaped at hc
    simp only [decide_eq_true_eq] at hc
    omega
  have hne : c ≠ '%' := by
    intro he
    exact hlt.2 (by rw [he]; rfl)
  have henc : utf8EncodeCp c.toNat = [c.toNat] := by
    unfold utf8EncodeCp
    rw [if_pos hlt.1]
  rw [pctGo]
  simp [hne, henc]

theorem pctGo_escList (bs : List Nat) (hbs : ∀ b ∈ bs, b < 256) (k : List Char) :
    pctGo (bs.flatMap (fun b => ['%', hexDigitChar (b / 16), hexDigitChar (b % 16)]) ++ k) 0 0
      = (pctGo k 0 0).map (bs ++ ·) := by
  induction bs with
  | nil => simp
  | cons b bs ih =>
    have hb : b < 256 := hbs b (List.mem_cons_self b bs)
    have hbs' : ∀ x ∈ bs, x < 256 := fun x hx => hbs x (List.mem_cons_of_mem b hx)
    simp only [List.flatMap_cons, List.append_assoc, List.cons_append, List.nil_append]
    rw [pctGo_escape b hb, ih hbs']
    cases pctGo k 0 0 <;> simp

theorem pctGo_encode (cs : List Char) :
    pctGo (encodeURIComponentChars cs) 0 0 = some (utf8EncodeChars cs) := by
  induction cs with
  | nil => rfl
  | cons c cs ih =>
    have hstep : encodeURIComponentChars (c :: cs)
        = (if isUriUnescaped c then [c]
           else (utf8EncodeCp c.toNat).flatMap fun b =>
             ['%', hexDigitChar (b / 16), hexDigitChar (b % 16)]) ++ encodeURIComponentChars cs := by
      unfold encodeURIComponentChars
      rw [List.flatMap_cons]
    rw [hstep]
    by_cases hu : isUriUnescaped c
    · have hlt : c.toNat < 0x80 := by
        unfold isUriUnescaped at hu
        simp only [decide_eq_true_eq] at hu
        omega
      have henc : utf8EncodeCp c.toNat = [c.toNat] := by
        unfold utf8EncodeCp
        rw [if_pos hlt]
      rw [if_pos hu, List.singleton_append, pctGo_unescaped c hu, ih]
      simp [utf8EncodeChars, henc]
    · have hv : c.toNat < 0x110000 := by
        have hid : c.val.toNat = c.toNat := rfl
        rcases (c.valid : c.toNat < 0xD800 ∨ (0xE000 ≤ c.toNat ∧ c.toNat < 0x110000)) with h | h
        · omega
        · omega
      rw [if_neg hu, pctGo_escList (utf8EncodeCp c.toNat) (utf8EncodeCp_lt_256 c.toNat hv) _, ih]
      simp [utf8EncodeChars]

theorem decodeURIComponent_encodeURIComponent (s : String) :
    decodeURIComponent (encodeURIComponent s) = some s := by
  cases s with
  | mk data =>
    unfold decodeURIComponent encodeURIComponent
    simp only []
    rw [pctGo_encode data]
    simp only []
    rw [show utf8Decode (utf8EncodeChars data) = some (data.map Char.toNat) from
      utf8Decode_encodeChars data]
    simp [List.map_map, Function.comp_def, Char.ofNat_toNat]

/-!
## JSON values and `JSON.parse`

`decodeToken` in `lib/auth.ts` ends in `JSON.parse`, so JSON values and the
parser are embedded concretely.  Numbers are parsed into `ℚ` (an exact
idealization of the IEEE doubles `JSON.parse` produces; the token exps the
claims range over are integers well inside the exactly-representable
range).  A `\uXXXX` escape producing a lone UTF-16 surrogate — which a JS
string could hold but a Lean `String` cannot — is replaced with U+FFFD;
no claim concerns such payloads. -/

inductive Json where
  | null : Json
  | bool (b : Bool) : Json
  | num (q : ℚ) : Json
  | str (s : String) : Json
  | arr (xs : List Json) : Json
  | obj (ms : List (String × Json)) : Json

/-- JSON whitespace: space, tab, line feed, carriage return. -/
def isJsonWs (c : Char) : Bool :=
  c.toNat = 32 ∨ c.toNat = 9 ∨ c.toNat = 10 ∨ c.toNat = 13

def skipJWs : List Char → List Char
  | [] => []
  | c :: rest => if isJsonWs c then skipJWs rest else c :: rest

/-- Match a literal suffix (`ull` of `null`, etc.). -/
def stripL : List Char → List Char → Option (List Char)
  | [], cs => some cs
  | _ :: _, [] => none
  | l :: ls, c :: cs => if c = l then stripL ls cs else none

/-- Consume a run of decimal digits. -/
def takeDigits : List Char → List Nat × List Char
  | [] => ([], [])
  | c :: rest =>
    if 48 ≤ c.toNat ∧ c.toNat ≤ 57 then
      let p := takeDigits rest
      ((c.toNat - 48) :: p.1, p.2)
    else ([], c :: rest)

def digitsVal (ds : List Nat) : Nat := ds.foldl (fun a d => a * 10 + d) 0

/-- JSON string literal body (after the opening quote) as UTF-16 code units. -/
def parseJUnits : Nat → List Char → Option (List Nat × List Char)
  | 0, _ => none
  | fuel + 1, cs =>
    match cs with
    | [] => none
    | c :: rest =>
      if c.toNat = 34 then some ([], rest)
      else if c.toNat = 92 then
        match rest with
        | [] => none
        | e :: rest2 =>
          if e.toNat = 34 then (parseJUnits fuel rest2).map (fun p => (34 :: p.1, p.2))
          else if e.toNat = 92 then (parseJUnits fuel rest2).map (fun p => (92 :: p.1, p.2))
          else if e.toNat = 47 then (parseJUnits fuel rest2).map (fun p => (47 :: p.1, p.2))
          else if e.toNat = 98 then (parseJUnits fuel rest2).map (fun p => (8 :: p.1, p.2))
          else if e.toNat = 102 then (parseJUnits fuel rest2).map (fun p => (12 :: p.1, p.2))
          else if e.toNat = 110 then (parseJUnits fuel rest2).map (fun p => (10 :: p.1, p.2))
          else if e.toNat = 114 then (parseJUnits fuel rest2).map (fun p => (13 :: p.1, p.2))
          else if e.toNat = 116 then (parseJUnits fuel rest2).map (fun p => (9 :: p.1, p.2))
          else if e.toNat = 117 then
            match rest2 with
            | h1 :: h2 :: h3 :: h4 :: rest3 =>
              match hexDigitVal h1, hexDigitVal h2, hexDigitVal h3, hexDigitVal h4 with
              | some d1, some d2, some d3, some d4 =>
                (parseJUnits fuel rest3).map (fun p =>
                  ((((d1 * 16 + d2) * 16 + d3) * 16 + d4) :: p.1, p.2))
              | _, _, _, _ => none
            | _ => none
          else none
      else if c.toNat < 32 then none
      else (parseJUnits fuel rest).map (fun p => (c.toNat :: p.1, p.2))

/-- Combine surrogate pairs; a lone surrogate becomes U+FFFD. -/
def unitsToChars : Nat → List Nat → List Char
  | 0, _ => []
  | _ + 1, [] => []
  | fuel + 1, u :: rest =>
    if 0xD800 ≤ u ∧ u < 0xDC00 then
      match rest with
      | v :: rest2 =>
        if 0xDC00 ≤ v ∧ v < 0xE000 then
          Char.ofNat (0x10000 + (u - 0xD800) * 1024 + (v - 0xDC00)) :: unitsToChars fuel rest2
        else Char.ofNat 0xFFFD :: unitsToChars fuel rest
      | [] => [Char.ofNat 0xFFFD]
    else if 0xDC00 ≤ u ∧ u < 0xE000 then Char.ofNat 0xFFFD :: unitsToChars fuel rest
    else Char.ofNat u :: unitsToChars fuel rest

def parseJStr (fuel : Nat) (cs : List Char) : Option (String × List Char) :=
  (parseJUnits fuel cs).map (fun p => (⟨unitsToChars (p.1.length + 1) p.1⟩, p.2))

/-- JSON number literal: `-? (0 | [1-9][0-9]*) (. [0-9]+)? ([eE][+-]?[0-9]+)?`. -/
def parseJNum (cs : List Char) : Option (ℚ × List Char) :=
  let p1 : Bool × List Char :=
    match cs with
    | c :: rest => if c.toNat = 45 then (true, rest) else (false, cs)
    | [] => (false, cs)
  match takeDigits p1.2 with
  | ([], _) => none
  | (d :: ds, cs2) =>
    if d = 0 ∧ ds ≠ [] then none
    else
      let ipart : Nat := digitsVal (d :: ds)
      let fracStep : Option (List Nat × List Char) :=
        match cs2 with
        | c :: rest =>
          if c.toNat = 46 then
            match takeDigits rest with
            | ([], _) => none
            | (fs, r) => some (fs, r)
          else some ([], cs2)
        | [] => some ([], cs2)
      match fracStep with
      | none => none
      | some (fs, cs3) =>
        let expStep : Option (Bool × Nat × List Char) :=
          match cs3 with
          | c :: rest =>
            if c.toNat = 101 ∨ c.toNat = 69 then
              let signed : Bool × List Char :=
                match rest with
                | c2 :: rest2 =>
                  if c2.toNat = 45 then (true, rest2)
                  else if c2.toNat = 43 then (false, rest2)
                  else (false, rest)
                | [] => (false, rest)
              match takeDigits signed.2 with
              | ([], _) => none
              | (es, r) => some (signed.1, digitsVal es, r)
            else some (false, 0, cs3)
          | [] => some (false, 0, cs3)
        match expStep with
        | none => none
        | some (eneg, e, cs4) =>
          let mant : ℚ := (ipart : ℚ) + (digitsVal fs : ℚ) / (10 : ℚ) ^ fs.length
          let scaled : ℚ := if eneg then mant / (10 : ℚ) ^ e else mant * (10 : ℚ) ^ e
          some ((if p1.1 then -scaled else scaled), cs4)

/-- A partially-built container on the parse stack. -/
inductive PFrame where
  | arrF (done : List Json) : PFrame
  | objF (done : List (String × Json)) (key : String) : PFrame

/-- Shift-reduce loop for `JSON.parse`.  `mode = none` expects a value;
`mode = some v` holds a completed value awaiting a separator or a closing
bracket of the innermost frame. -/
def parseLoop : Nat → List Char → List PFrame → Option Json → Option Json
  | 0, _, _, _ => none
  | fuel + 1, cs, stack, some v =>
    match stack with
    | [] => if skipJWs cs = [] then some v else none
    | PFrame.arrF done :: stack2 =>
      match skipJWs cs with
      | [] => none
      | c :: rest =>
        if c.toNat = 44 then parseLoop fuel rest (PFrame.arrF (done ++ [v]) :: stack2) none
        else if c.toNat = 93 then parseLoop fuel rest stack2 (some (Json.arr (done ++ [v])))
        else none
    | PFrame.objF done key :: stack2 =>
      match skipJWs cs with
      | [] => none
      | c :: rest =>
        if c.toNat = 44 then
          match skipJWs rest with
          | c2 :: rest2 =>
            if c2.toNat = 34 then
              match parseJStr fuel rest2 with
              | some (k2, rest3) =>
                match skipJWs rest3 with
                | c3 :: rest4 =>
                  if c3.toNat = 58 then
                    parseLoop fuel rest4 (PFrame.objF (done ++ [(key, v)]) k2 :: stack2) none
                  else none
                | [] => none
              | none => none
            else none
          | [] => none
        else if c.toNat = 125 then
          parseLoop fuel rest stack2 (some (Json.obj (done ++ [(key, v)])))
        else none
  | fuel + 1, cs, stack, none =>
    match skipJWs cs with
    | [] => none
    | c :: rest =>
      if c.toNat = 91 then
        match skipJWs rest with
        | c2 :: rest2 =>
          if c2.toNat = 93 then parseLoop fuel rest2 stack (some (Json.arr []))
          else parseLoop fuel (c2 :: rest2) (PFrame.arrF [] :: stack) none
        | [] => none
      else if c.toNat = 123 then
        match skipJWs rest with
        | c2 :: rest2 =>
          if c2.toNat = 125 then parseLoop fuel rest2 stack (some (Json.obj []))
          else if c2.toNat = 34 then
            match parseJStr fuel rest2 with
            | some (k, rest3) =>
              match skipJWs rest3 with
              | c3 :: rest4 =>
                if c3.toNat = 58 then parseLoop fuel rest4 (PFrame.objF [] k :: stack) none
                else none
              | [] => none
            | none => none
          else none
        | [] => none
      else if c.toNat = 34 then
        match parseJStr fuel rest with
        | some (sv, rest2) => parseLoop fuel rest2 stack (some (Json.str sv))
        | none => none
      else if c.toNat = 110 then
        match stripL [Char.ofNat 117, Char.ofNat 108, Char.ofNat 108] rest with
        | some rest2 => parseLoop fuel rest2 stack (some Json.null)
        | none => none
      else if c.toNat = 116 then
        match stripL [Char.ofNat 114, Char.ofNat 117, Char.ofNat 101] rest with
        | some rest2 => parseLoop fuel rest2 stack (some (Json.bool true))
        | none => none
      else if c.toNat = 102 then
        match stripL [Char.ofNat 97, Char.ofNat 108, Char.ofNat 115, Char.ofNat 101] rest with
        | some rest2 => parseLoop fuel rest2 stack (some (Json.bool false))
        | none => none
      else
        match parseJNum (c :: rest) with
        | some (q, rest2) => parseLoop fuel rest2 stack (some (Json.num q))
        | none => none

/-- Model of `JSON.parse`; `none` models a thrown `SyntaxError`. -/
def jsonParse (s : String) : Option Json :=
  parseLoop (2 * s.data.length + 2) s.data [] none

/-!
## JS value semantics

Truthiness, `ToNumber` and `ToString` for parsed JSON values, as the JS
expressions `!decoded`, `!decoded.exp`, `decoded.exp * 1000` and
`decoded.exp.toString()` in `lib/auth.ts` apply them. -/

/-- JS truthiness of a JSON value (`NaN` cannot come out of `JSON.parse`). -/
def jsTruthy : Json → Bool
  | Json.null => false
  | Json.bool b => b
  | Json.num q => decide (q ≠ 0)
  | Json.str s => decide (s ≠ "")
  | Json.arr _ => true
  | Json.obj _ => true

/-- Property access `j[k]`: defined bindings of an object (duplicate keys —
which `JSON.parse` resolves to the last occurrence — included); `undefined`
(`none`) on every other value. -/
def jsGetField (j : Json) (k : String) : Option Json :=
  match j with
  | Json.obj ms => (ms.reverse.find? (fun m => decide (m.1 = k))).map (fun m => m.2)
  | _ => none

/-- A JS number: finite (exact rational idealization of the double), an
infinity, or `NaN`. -/
inductive JsNum where
  | fin (q : ℚ) : JsNum
  | posInf : JsNum
  | negInf : JsNum
  | nan : JsNum

/-- ECMAScript WhiteSpace ∪ LineTerminator (trimmed by `ToNumber`). -/
def isJsWs (c : Char) : Bool :=
  c.toNat = 9 ∨ c.toNat = 10 ∨ c.toNat = 11 ∨ c.toNat = 12 ∨ c.toNat = 13 ∨ c.toNat = 32 ∨
  c.toNat = 160 ∨ c.toNat = 5760 ∨ (8192 ≤ c.toNat ∧ c.toNat ≤ 8202) ∨ c.toNat = 8232 ∨
  c.toNat = 8233 ∨ c.toNat = 8239 ∨ c.toNat = 8287 ∨ c.toNat = 12288 ∨ c.toNat = 65279

def trimJsWs (cs : List Char) : List Char :=
  ((cs.dropWhile isJsWs).reverse.dropWhile isJsWs).reverse

/-- Digit value in radix 2, 8 or 16. -/
def radixVal (r : Nat) (c : Char) : Option Nat :=
  match hexDigitVal c with
  | some d => if d < r then some d else none
  | none => none

/-- Left fold of radix digits; `none` if any character is not a digit. -/
def radixFold (r : Nat) (acc : Nat) : List Char → Option Nat
  | [] => some acc
  | c :: rest =>
    match radixVal r c with
    | some d => radixFold r (acc * r + d) rest
    | none => none

/-- ECMAScript `StringToNumber` (ToNumber applied to a string): trimmed
empty string is `0`; `0x`/`0o`/`0b` integer literals (no sign); otherwise
an optional sign followed by `Infinity` or a decimal literal (leading
zeros, a leading or trailing dot, and an exponent are allowed); anything
else is `NaN`. -/
def jsStringToNumber (s : String) : JsNum :=
  let cs := trimJsWs s.data
  if cs = [] then JsNum.fin 0
  else
    let nonDec : Option (Option Nat) :=
      match cs with
      | z :: x :: rest =>
        if z.toNat = 48 ∧ (x.toNat = 120 ∨ x.toNat = 88) then
          some (if rest = [] then none else radixFold 16 0 rest)
        else if z.toNat = 48 ∧ (x.toNat = 111 ∨ x.toNat = 79) then
          some (if rest = [] then none else radixFold 8 0 rest)
        else if z.toNat = 48 ∧ (x.toNat = 98 ∨ x.toNat = 66) then
          some (if rest = [] then none else radixFold 2 0 rest)
        else none
      | _ => none
    match nonDec with
    | some (some v) => JsNum.fin v
    | some none => JsNum.nan
    | none =>
      let signed : Bool × List Char :=
        match cs with
        | c :: rest =>
          if c.toNat = 45 then (true, rest)
          else if c.toNat = 43 then (false, rest)
          else (false, cs)
        | [] => (false, cs)
      if signed.2 = "Infinity".data then
        if signed.1 then JsNum.negInf else JsNum.posInf
      else
        match takeDigits signed.2 with
        | (ids, cs2) =>
          let fracStep : Option (List Nat × List Char) :=
            match cs2 with
            | c :: rest => if c.toNat = 46 then some (takeDigits rest) else some ([], cs2)
            | [] => some ([], cs2)
          match fracStep with
          | none => JsNum.nan
          | some (fds, cs3) =>
            if ids = [] ∧ fds = [] then JsNum.nan
            else
              let expStep : Option (Bool × Nat × List Char) :=
                match cs3 with
                | c :: rest =>
                  if c.toNat = 101 ∨ c.toNat = 69 then
                    let esigned : Bool × List Char :=
                      match rest with
                      | c2 :: rest2 =>
                        if c2.toNat = 45 then (true, rest2)
                        else if c2.toNat = 43 then (false, rest2)
                        else (false, rest)
                      | [] => (false, rest)
                    match takeDigits esigned.2 with
                    | ([], _) => none
                    | (es, r) => some (esigned.1, digitsVal es, r)
                  else some (false, 0, cs3)
                | [] => some (false, 0, cs3)
              match expStep with
              | none => JsNum.nan
              | some (eneg, e, cs4) =>
                if cs4 ≠ [] then JsNum.nan
                else
                  let mant : ℚ := (digitsVal ids : ℚ) + (digitsVal fds : ℚ) / (10 : ℚ) ^ fds.length
                  let scaled : ℚ := if eneg then mant / (10 : ℚ) ^ e else mant * (10 : ℚ) ^ e
                  JsNum.fin (if signed.1 then -scaled else scaled)

def dropTrailingZeros (ds : List Char) : List Char :=
  (ds.reverse.dropWhile (fun c => c.toNat = 48)).reverse

/-- Fractional digits of a rational in `[0, 1)`. -/
def fracDigits : Nat → ℚ → List Nat
  | 0, _ => []
  | k + 1, x =>
    let y := x * 10
    let d := y.floor.toNat
    d :: fracDigits k (y - y.floor)

/-- JS `Number::toString(10)`.  Exact for the integers the stored tokens
carry; for non-integral values this prints a 20-digit truncated decimal
expansion (an idealization of shortest-round-trip double printing — no
theorem below depends on this branch). -/
def jsNumToString (q : ℚ) : String :=
  if q = 0 then "0"
  else
    let sign : String := if q < 0 then "-" else ""
    let a : ℚ := |q|
    if a.den = 1 then
      let m := a.num.toNat
      if m < 10 ^ 21 then sign ++ Nat.repr m
      else
        let ds := (Nat.repr m).data
        let k := ds.length - 1
        match dropTrailingZeros ds with
        | [] => "0"
        | d :: rest =>
          sign ++ (⟨[d]⟩ : String) ++ (if rest = [] then "" else "." ++ (⟨rest⟩ : String)) ++
            "e+" ++ Nat.repr k
    else
      let ip : Nat := a.floor.toNat
      let frac := fracDigits 20 (a - ⌊a⌋)
      let ftrim := dropTrailingZeros (frac.map (fun d => Char.ofNat (48 + d)))
      sign ++ Nat.repr ip ++ (if ftrim = [] then "" else "." ++ (⟨ftrim⟩ : String))

def joinComma : List String → String
  | [] => ""
  | [s] => s
  | s :: rest => s ++ "," ++ joinComma rest

/-- JS `ToString` of a JSON value (fuelled for the nested-array recursion of
`Array.prototype.join`, where `null` elements print as empty). -/
def jsToStringFuel : Nat → Json → String
  | _, Json.null => "null"
  | _, Json.bool b => if b then "true" else "false"
  | _, Json.num q => jsNumToString q
  | _, Json.str s => s
  | _, Json.obj _ => "[object Object]"
  | 0, Json.arr _ => ""
  | fuel + 1, Json.arr xs =>
    joinComma (xs.map (fun x =>
      match x with
      | Json.null => ""
      | x => jsToStringFuel fuel x))

/-- JS `ToString` of a JSON value.  The `fuel` argument only bounds the
nesting depth of the array recursion; every call site below passes a bound
exceeding the depth of any value `JSON.parse` can produce from its input,
so the fuel never runs out. -/
def jsToString (fuel : Nat) (j : Json) : String := jsToStringFuel fuel j

/-- JS `ToNumber` of a JSON value: objects go through
`ToPrimitive` = `"[object Object]"` (hence `NaN`), arrays through
`Array.prototype.toString` (a comma join) and then `StringToNumber`. -/
def jsToNumber (fuel : Nat) (j : Json) : JsNum :=
  match j with
  | Json.null => JsNum.fin 0
  | Json.bool b => JsNum.fin (if b then 1 else 0)
  | Json.num q => JsNum.fin q
  | Json.str s => jsStringToNumber s
  | Json.arr xs => jsStringToNumber (jsToString fuel (Json.arr xs))
  | Json.obj _ => JsNum.nan

/-!
## `atob` (forgiving-base64 decode) and `decodeToken` / `isTokenExpired`
(`lib/auth.ts`). -/

/-- ASCII whitespace stripped by forgiving-base64. -/
def isB64Ws (c : Char) : Bool :=
  c.toNat = 9 ∨ c.toNat = 10 ∨ c.toNat = 12 ∨ c.toNat = 13 ∨ c.toNat = 32

/-- Value of a base64 alphabet character. -/
def b64Val (c : Char) : Option Nat :=
  if 65 ≤ c.toNat ∧ c.toNat ≤ 90 then some (c.toNat - 65)
  else if 97 ≤ c.toNat ∧ c.toNat ≤ 122 then some (c.toNat - 71)
  else if 48 ≤ c.toNat ∧ c.toNat ≤ 57 then some (c.toNat + 4)
  else if c.toNat = 43 then some 62
  else if c.toNat = 47 then some 63
  else none

def b64Vals : List Char → Option (List Nat)
  | [] => some []
  | c :: rest =>
    match b64Val c with
    | some v => (b64Vals rest).map (v :: ·)
    | none => none

/-- Group 6-bit values into 8-bit bytes, discarding trailing spare bits;
a single leftover value (≡ 1 mod 4) is malformed. -/
def b64Group : List Nat → Option (List Nat)
  | [] => some []
  | [_] => none
  | [a, b] => some [a * 4 + b / 16]
  | [a, b, c] => some [a * 4 + b / 16, b % 16 * 16 + c / 4]
  | a :: b :: c :: d :: rest =>
    (b64Group rest).map (fun t =>
      (a * 4 + b / 16) :: (b % 16 * 16 + c / 4) :: (c % 4 * 64 + d) :: t)

/-- The browser's `atob` (WHATWG forgiving-base64): strip ASCII whitespace,
strip up to two trailing `=` when the length is a multiple of four, reject
length ≡ 1 mod 4 and any character outside the base64 alphabet.  Returns
the decoded bytes; `none` models a thrown `InvalidCharacterError`. -/
def atob (s : String) : Option (List Nat) :=
  let cs := s.data.filter (fun c => ! isB64Ws c)
  let cs2 :=
    if cs.length % 4 = 0 then
      match cs.reverse with
      | e1 :: e2 :: rest =>
        if e1.toNat = 61 then
          (if e2.toNat = 61 then rest.reverse else (e2 :: rest).reverse)
        else cs
      | _ => cs
    else cs
  if cs2.length % 4 = 1 then none
  else
    match b64Vals cs2 with
    | some vs => b64Group vs
    | none => none

/-- JS `String.prototype.split` with the one-character separator `"."`. -/
def splitOnDot : List Char → List (List Char)
  | [] => [[]]
  | c :: rest =>
    let r := splitOnDot rest
    if c.toNat = 46 then [] :: r
    else
      match r with
      | seg :: ss => (c :: seg) :: ss
      | [] => [[c]]

/-- Lowercase hexadecimal digit character (JS `toString(16)`). -/
def hexDigitCharLower (d : Nat) : Char :=
  if d < 10 then Char.ofNat (48 + d) else Char.ofNat (87 + d)

/-- Model of `decodeToken` (lib/auth.ts): takes segment 1 of the period-split token,
maps base64url to base64 (`-` → `+`, `_` → `/`), `atob`-decodes it, percent-
escapes every byte as `'%' + ('00' + hex).slice(-2)`, `decodeURIComponent`s
the result and `JSON.parse`s the payload.  Every thrown error is caught and
becomes `null` (`none`). -/
def decodeToken (token : String) : Option Json :=
  match (splitOnDot token.data)[1]? with
  | none => none
  | some seg =>
    if seg = [] then none
    else
      let base64 : List Char := seg.map (fun c =>
        if c.toNat = 45 then Char.ofNat 43
        else if c.toNat = 95 then Char.ofNat 47 else c)
      match atob ⟨base64⟩ with
      | none => none
      | some bytes =>
        let pct : List Char := bytes.flatMap (fun b =>
          [Char.ofNat 37, hexDigitCharLower (b / 16), hexDigitCharLower (b % 16)])
        match decodeURIComponent ⟨pct⟩ with
        | none => none
        | some payload => jsonParse payload

/-- Observation: the numeric `exp` claim of a token, when the token decodes
to a payload whose `exp` member is a JSON number. -/
def tokenExpNum (t : String) : Option ℚ :=
  match decodeToken t with
  | some j =>
    match jsGetField j "exp" with
    | some (Json.num q) => some q
    | _ => none
  | none => none

/-- Model of `isTokenExpired` (lib/auth.ts): `true` when decoding failed or
the payload or its `exp` member is falsy; otherwise evaluates
`decoded.exp * 1000 <= Date.now() + 60000` under JS number coercion. -/
def isTokenExpired (token : String) (nowMs : ℤ) : Bool :=
  match decodeToken token with
  | none => true
  | some decoded =>
    if ¬ jsTruthy decoded then true
    else
      match jsGetField decoded "exp" with
      | none => true
      | some e =>
        if ¬ jsTruthy e then true
        else
          match jsToNumber (token.data.length + 2) e with
          | JsNum.fin q => decide (q * 1000 ≤ (nowMs : ℚ) + 60000)
          | JsNum.posInf => false
          | JsNum.negInf => true
          | JsNum.nan => false

/-!
## The browser state and the `lib/cookies.ts` operations

The model covers the browser execution context (`isBrowser` is true), so
the `if (!isBrowser) return ...` guards of the source are never taken.
`document.cookie` is modelled as a map from cookie name to the stored
(percent-encoded) cookie value; the browser's serialization of the jar that
`getCookie` re-parses with `split(';')`/`indexOf` is abstracted into a
lookup.  `localStorage` operations never throw in the model, so the only
reachable `catch` is the one triggered by a `decodeURIComponent` failure in
`getCookie`. -/

structure BrowserState where
  /-- Model of `document.cookie`: cookie name ↦ raw (encoded) cookie value. -/
  jar : StoreMap
  /-- Model of `localStorage`. -/
  ls : StoreMap

/-- JS `a || b` on nullable strings (empty string is falsy). -/
def jsOr (a b : Option String) : Option String :=
  match a with
  | some v => if v = "" then b else some v
  | none => b

/-- Truthiness of a nullable string. -/
def truthyStr : Option String → Bool
  | some v => decide (v ≠ "")
  | none => false

/-- Model of `setCookie(name, value, days)`: writes
`name=encodeURIComponent(value);expires=<days ahead>;path=/;SameSite=Lax`
into `document.cookie` and mirrors the raw value under the
`cookie_`-prefixed localStorage key.  `days` is positive at every call
site, so the jar entry is a live cookie; browser-side TTL expiry is not
advanced by the model. -/
def setCookie (name value : String) (days : Nat) (s : BrowserState) : BrowserState :=
  { jar := s.jar.put name (encodeURIComponent value),
    ls := s.ls.put ("cookie_" ++ name) value }

/-- Model of `getCookie(name)`: first the cookie jar (on a hit the decoded value is
synced to the `cookie_` localStorage mirror); else the mirror (restored to
the jar via `setCookie` with the default 30-day TTL — but only when truthy);
else the legacy unprefixed localStorage key.  A `decodeURIComponent` throw
lands in the `catch` block, which falls back to
`localStorage.getItem('cookie_'+name) || localStorage.getItem(name)`
without any resync. -/
def getCookie (name : String) (s : BrowserState) : Option String × BrowserState :=
  match s.jar name with
  | some raw =>
    match decodeURIComponent raw with
    | some value => (some value, { s with ls := s.ls.put ("cookie_" ++ name) value })
    | none => (jsOr (s.ls ("cookie_" ++ name)) (s.ls name), s)
  | none =>
    match s.ls ("cookie_" ++ name) with
    | some stored =>
      if stored = "" then (s.ls name, s)
      else (some stored, setCookie name stored 30 s)
    | none => (s.ls name, s)

/-- Model of `removeCookie(name)`: expires the cookie and deletes both the mirror
and the legacy localStorage keys. -/
def removeCookie (name : String) (s : BrowserState) : BrowserState :=
  { jar := s.jar.del name,
    ls := (s.ls.del ("cookie_" ++ name)).del name }

/-!
## `lib/auth.ts`: the `auth` object over the browser state -/

def TOKEN_KEY : String := "auth_token"
def TOKEN_EXPIRY_KEY : String := "auth_token_expiry"

/-- Model of `auth.setToken(token)`: cookie (30-day TTL) + localStorage copies of the
raw token; when the decoded payload has a truthy `exp`, its `toString()` is
cached under `auth_token_expiry`. -/
def setToken (token : String) (s : BrowserState) : BrowserState :=
  let s1 := setCookie TOKEN_KEY token 30 s
  let s2 : BrowserState := { s1 with ls := s1.ls.put TOKEN_KEY token }
  match decodeToken token with
  | some decoded =>
    match jsGetField decoded "exp" with
    | some e =>
      if jsTruthy e then
        { s2 with ls := s2.ls.put TOKEN_EXPIRY_KEY (jsToString (token.data.length + 2) e) }
      else s2
    | none => s2
  | none => s2

/-- Model of `auth.removeToken()`: removes the cookie (and its mirror and legacy
keys) and the localStorage token and cached-expiry entries. -/
def removeToken (s : BrowserState) : BrowserState :=
  let s1 := removeCookie TOKEN_KEY s
  { s1 with ls := (s1.ls.del TOKEN_KEY).del TOKEN_EXPIRY_KEY }

/-- Model of `auth.getToken()`: cookie first; on a falsy result the localStorage
fallback (restored to the cookie when truthy); an expired truthy token is
removed and `null` returned, otherwise the token (including a falsy `""`)
is returned unchanged. -/
def getTokenOp (nowMs : ℤ) (s : BrowserState) : Option String × BrowserState :=
  let p1 := getCookie TOKEN_KEY s
  let p2 : Option String × BrowserState :=
    if truthyStr p1.1 then p1
    else
      match p1.2.ls TOKEN_KEY with
      | some t1 => (some t1, if t1 = "" then p1.2 else setCookie TOKEN_KEY t1 30 p1.2)
      | none => (none, p1.2)
  match p2.1 with
  | some t =>
    if t ≠ "" ∧ isTokenExpired t nowMs then (none, removeToken p2.2)
    else (some t, p2.2)
  | none => (none, p2.2)

/-- Model of `auth.isAuthenticated()`: a falsy `getToken()` result is `false`; a
truthy one is re-checked with `isTokenExpired` (removing the token again on
expiry) and `true` otherwise. -/
def isAuthenticatedOp (nowMs : ℤ) (s : BrowserState) : Bool × BrowserState :=
  let p := getTokenOp nowMs s
  match p.1 with
  | none => (false, p.2)
  | some t =>
    if t = "" then (false, p.2)
    else if isTokenExpired t nowMs then (false, removeToken p.2)
    else (true, p.2)

/-!
## `lib/preferences.ts`: the `preferences` object -/

def TIMEZONE_KEY : String := "history_timezone"
def NETWORK_UNIT_KEY : String := "network_unit"

/-- Model of `detectLocalTimezone()`: the environment's
`Intl.DateTimeFormat().resolvedOptions().timeZone`, modelled as a
parameter; `none` models a throw or an undefined result, and a falsy
(empty) identifier also falls back to `"UTC"`. -/
def detectLocalTimezone (envTz : Option String) : String :=
  match envTz with
  | some tz => if tz = "" then "UTC" else tz
  | none => "UTC"

/-- Model of `getPreference(key, defaultValue)`: cookie first, then the unprefixed
localStorage key (synced back to the cookie with a 365-day TTL when
truthy), then the default for a falsy result. -/
def getPreference (key defaultValue : String) (s : BrowserState) : String × BrowserState :=
  let p1 := getCookie key s
  let p2 : Option String × BrowserState :=
    if truthyStr p1.1 then p1
    else
      match p1.2.ls key with
      | some v => (some v, if v = "" then p1.2 else setCookie key v 365 p1.2)
      | none => (none, p1.2)
  match p2.1 with
  | some v => (if v = "" then defaultValue else v, p2.2)
  | none => (defaultValue, p2.2)

/-- Model of `setPreference(key, value)`: cookie (365-day TTL) + unprefixed
localStorage copy. -/
def setPreference (key value : String) (s : BrowserState) : BrowserState :=
  let s1 := setCookie key value 365 s
  { s1 with ls := s1.ls.put key value }

/-- Model of `removePreference(key)`. -/
def removePreference (key : String) (s : BrowserState) : BrowserState :=
  let s1 := removeCookie key s
  { s1 with ls := s1.ls.del key }

/-- Model of `preferences.getTimezone()`: the stored preference when truthy,
otherwise the detected local timezone — which is deliberately not
persisted. -/
def getTimezoneOp (envTz : Option String) (s : BrowserState) : String × BrowserState :=
  let p := getPreference TIMEZONE_KEY "" s
  if p.1 = "" then (detectLocalTimezone envTz, p.2) else p

/-- Model of `preferences.setTimezone(tz)`. -/
def setTimezoneOp (tz : String) (s : BrowserState) : BrowserState :=
  setPreference TIMEZONE_KEY tz s

/-- Model of `preferences.getNetworkUnit()`: the stored value when it is exactly
`"Mbps"` or `"MB/s"`, else the default `"MB/s"`. -/
def getNetworkUnitOp (s : BrowserState) : String × BrowserState :=
  let p := getPreference NETWORK_UNIT_KEY "MB/s" s
  (if p.1 = "Mbps" ∨ p.1 = "MB/s" then p.1 else "MB/s", p.2)

/-- Model of `preferences.setNetworkUnit(unit)`. -/
def setNetworkUnitOp (u : String) (s : BrowserState) : BrowserState :=
  setPreference NETWORK_UNIT_KEY u s

/-- Model of `preferences.clearAll()`: removes the two preference keys in
declaration order. -/
def clearAllOp (s : BrowserState) : BrowserState :=
  removePreference NETWORK_UNIT_KEY (removePreference TIMEZONE_KEY s)

/-!
## Helper lemmas -/

theorem StoreMap.put_eq (m : StoreMap) (k v : String) : m.put k v k = some v := by
  simp [StoreMap.put]

theorem StoreMap.put_ne (m : StoreMap) (k v k' : String) (h : k' ≠ k) :
    m.put k v k' = m k' := by
  simp [StoreMap.put, h]

theorem StoreMap.del_eq (m : StoreMap) (k : String) : m.del k k = none := by
  simp [StoreMap.del]

theorem StoreMap.del_ne (m : StoreMap) (k k' : String) (h : k' ≠ k) :
    m.del k k' = m k' := by
  simp [StoreMap.del, h]

theorem StoreMap.put_put (m : StoreMap) (k v w : String) :
    (m.put k v).put k w = m.put k w := by
  funext k'
  by_cases h : k' = k <;> simp [StoreMap.put, h]

/-- A cookie-jar hit whose raw value decodes: returns the decoded value and
syncs the localStorage mirror. -/
theorem getCookie_jar_encode (name v : String) (s : BrowserState)
    (h : s.jar name = some (encodeURIComponent v)) :
    getCookie name s = (some v, { s with ls := s.ls.put ("cookie_" ++ name) v }) := by
  unfold getCookie
  rw [h]
  simp only [decodeURIComponent_encodeURIComponent]

/-- A get on a key absent from the jar, the mirror and the legacy slot
returns `none` and leaves the state unchanged. -/
theorem getCookie_absent (name : String) (s : BrowserState)
    (h1 : s.jar name = none) (h2 : s.ls ("cookie_" ++ name) = none)
    (h3 : s.ls name = none) :
    getCookie name s = (none, s) := by
  unfold getCookie
  rw [h1, h2, h3]

/-- Evaluating `isTokenExpired` on a token whose payload carries a numeric `exp`:
expired exactly when `exp` is (falsy) zero or within the skew buffer. -/
theorem isTokenExpired_num (t : String) (j : Json) (e : ℚ) (nowMs : ℤ)
    (hd : decodeToken t = some j) (he : jsGetField j "exp" = some (Json.num e)) :
    isTokenExpired t nowMs = (decide (e = 0) || decide (e * 1000 ≤ (nowMs : ℚ) + 60000)) := by
  have hobj : jsTruthy j = true := by
    cases j <;> simp_all [jsGetField, jsTruthy]
  unfold isTokenExpired
  rw [hd]
  simp only [hobj, he]
  by_cases h0 : e = 0
  · simp [jsTruthy, h0]
  · simp [jsTruthy, h0, jsToNumber]

/-- The state written by `setToken` for a token with a truthy numeric
`exp`, as three explicit localStorage writes and one jar write. -/
theorem setToken_state_num (t : String) (j : Json) (e : ℚ) (s : BrowserState)
    (hd : decodeToken t = some j) (he : jsGetField j "exp" = some (Json.num e))
    (h0 : e ≠ 0) :
    setToken t s = ⟨s.jar.put TOKEN_KEY (encodeURIComponent t),
      ((s.ls.put ("cookie_" ++ TOKEN_KEY) t).put TOKEN_KEY t).put TOKEN_EXPIRY_KEY
        (jsToString (t.data.length + 2) (Json.num e))⟩ := by
  unfold setToken setCookie
  rw [hd]
  simp only [he]
  simp [jsTruthy, h0]

/-- The four keys `removeToken` clears are absent afterwards. -/
theorem removeToken_cleared (s : BrowserState) :
    (removeToken s).jar TOKEN_KEY = none ∧
    (removeToken s).ls TOKEN_KEY = none ∧
    (removeToken s).ls ("cookie_" ++ TOKEN_KEY) = none ∧
    (removeToken s).ls TOKEN_EXPIRY_KEY = none := by
  unfold removeToken removeCookie
  refine ⟨?_, ?_, ?_, ?_⟩ <;> simp [StoreMap.del, TOKEN_KEY, TOKEN_EXPIRY_KEY]

/-- Running `getToken` on a state with no token under any of the three probes. -/
theorem getTokenOp_absent (nowMs : ℤ) (s : BrowserState)
    (h1 : s.jar TOKEN_KEY = none) (h2 : s.ls ("cookie_" ++ TOKEN_KEY) = none)
    (h3 : s.ls TOKEN_KEY = none) :
    getTokenOp nowMs s = (none, s) := by
  unfold getTokenOp
  rw [getCookie_absent TOKEN_KEY s h1 h2 h3]
  simp [truthyStr, h3]

/-- The jar entry `setToken` leaves, independent of decodability. -/
theorem setToken_jar (t : String) (s : BrowserState) :
    (setToken t s).jar = s.jar.put TOKEN_KEY (encodeURIComponent t) := by
  unfold setToken setCookie
  repeat' split
  all_goals rfl

/-- Running `getToken` right after `setToken` of a non-empty token: the cookie hit
returns the token (after its encode/decode round trip) and syncs the
mirror; an expired token is then removed. -/
theorem getTokenOp_setToken_steps (s : BrowserState) (t : String) (nowMs : ℤ) (ht : t ≠ "") :
    getTokenOp nowMs (setToken t s)
      = if isTokenExpired t nowMs
        then (none, removeToken
          { setToken t s with ls := (setToken t s).ls.put ("cookie_" ++ TOKEN_KEY) t })
        else (some t,
          { setToken t s with ls := (setToken t s).ls.put ("cookie_" ++ TOKEN_KEY) t }) := by
  unfold getTokenOp
  rw [getCookie_jar_encode TOKEN_KEY t _ (by rw [setToken_jar]; exact StoreMap.put_eq _ _ _)]
  by_cases hexp : isTokenExpired t nowMs <;> simp [truthyStr, ht, hexp]

/-- Running `isAuthenticated` right after `setToken` of a non-empty token gives the
negation of `isTokenExpired`. -/
theorem isAuthenticatedOp_setToken (s : BrowserState) (t : String) (nowMs : ℤ) (ht : t ≠ "") :
    (isAuthenticatedOp nowMs (setToken t s)).1 = ! isTokenExpired t nowMs := by
  unfold isAuthenticatedOp
  rw [getTokenOp_setToken_steps s t nowMs ht]
  by_cases hexp : isTokenExpired t nowMs <;> simp [hexp, ht]

/-- A decodable token is non-empty (the empty string has no segment 1). -/
theorem decodeToken_ne_empty (t : String) (j : Json) (hd : decodeToken t = some j) :
    t ≠ "" := by
  intro h
  subst h
  exact absurd hd (by rw [show decodeToken "" = none from rfl]; simp)

/-- The `cookie_` mirror key never collides with the key itself. -/
theorem cookie_prefix_ne (k : String) : ("cookie_" ++ k) ≠ k := by
  intro h
  have hlen := congrArg String.length h
  rw [String.length_append, show ("cookie_" : String).length = 7 from rfl] at hlen
  omega

/-- A localStorage-mirror hit (truthy) is returned and restored into the
cookie jar via `setCookie`. -/
theorem getCookie_mirror_restore (k v : String) (s : BrowserState) (hv : v ≠ "")
    (hjar : s.jar k = none) (hm : s.ls ("cookie_" ++ k) = some v) :
    getCookie k s = (some v, setCookie k v 30 s) := by
  unfold getCookie
  rw [hjar, hm]
  simp [hv]

/-- The legacy unprefixed probe: when the jar misses and the mirror is
falsy, a legacy hit is returned with the state untouched. -/
theorem getCookie_legacy (k v : String) (s : BrowserState) (hjar : s.jar k = none)
    (hm : truthyStr (s.ls ("cookie_" ++ k)) = false) (hl : s.ls k = some v) :
    getCookie k s = (some v, s) := by
  unfold getCookie
  rw [hjar]
  rcases hmm : s.ls ("cookie_" ++ k) with _ | w
  · rw [hl]
  · rw [hmm] at hm
    have hw : w = "" := by simpa [truthyStr] using hm
    subst hw
    simp [hl]

/-- The localStorage entry `setToken` leaves under the token key. -/
theorem setToken_ls_token (t : String) (s : BrowserState) :
    (setToken t s).ls TOKEN_KEY = some t := by
  unfold setToken setCookie
  repeat' split
  all_goals simp [StoreMap.put, TOKEN_KEY, TOKEN_EXPIRY_KEY]

/-- Running `getPreference` right after `setPreference` of the same key: the stored
value when truthy, else the default. -/
theorem getPreference_setPreference (key d v : String) (s : BrowserState) :
    (getPreference key d (setPreference key v s)).1 = if v = "" then d else v := by
  have hck : key ≠ ("cookie_" ++ key) := Ne.symm (cookie_prefix_ne key)
  have hlook : ∀ (m : StoreMap) (w : String), m.put ("cookie_" ++ key) w key = m key :=
    fun m w => StoreMap.put_ne m ("cookie_" ++ key) w key hck
  unfold getPreference setPreference setCookie
  rw [getCookie_jar_encode key v _ (StoreMap.put_eq _ _ _)]
  by_cases hv : v = ""
  · subst hv
    simp [truthyStr, hlook, StoreMap.put_eq]
  · simp [truthyStr, hv]

/-- Running `getPreference` when the key is absent from all three probes. -/
theorem getPreference_absent (key d : String) (s : BrowserState)
    (h1 : s.jar key = none) (h2 : s.ls ("cookie_" ++ key) = none)
    (h3 : s.ls key = none) :
    getPreference key d s = (d, s) := by
  unfold getPreference
  rw [getCookie_absent key s h1 h2 h3]
  simp [truthyStr, h3]

/-- JS `decoded?.exp` truthiness for a decoded payload. -/
def expTruthy (j : Json) : Bool :=
  match jsGetField j "exp" with
  | some e => jsTruthy e
  | none => false

/-- Whether a token decodes at all to a payload with a truthy `exp`. -/
def tokenExpTruthy (t : String) : Bool :=
  match decodeToken t with
  | some j => expTruthy j
  | none => false

/-- A token with no truthy `exp` (undecodable, or `exp` missing or falsy)
is always reported expired. -/
theorem isTokenExpired_of_not_expTruthy (t : String) (nowMs : ℤ)
    (h : tokenExpTruthy t = false) : isTokenExpired t nowMs = true := by
  unfold tokenExpTruthy at h
  unfold isTokenExpired
  cases hdec : decodeToken t with
  | none => rfl
  | some j =>
    rw [hdec] at h
    simp only [] at h
    unfold expTruthy at h
    by_cases hj : jsTruthy j
    · simp only [hj]
      cases hf : jsGetField j "exp" with
      | none => simp
      | some e =>
        rw [hf] at h
        simp only [] at h
        simp [h]
    · simp [hj]

/-- Running `isAuthenticated` right after storing the empty token: the falsy `""`
makes every guard fail. -/
theorem isAuthenticatedOp_setToken_empty (s : BrowserState) (nowMs : ℤ) :
    (isAuthenticatedOp nowMs (setToken "" s)).1 = false := by
  unfold isAuthenticatedOp getTokenOp
  rw [getCookie_jar_encode TOKEN_KEY "" _ (by rw [setToken_jar]; exact StoreMap.put_eq _ _ _)]
  have hck : TOKEN_KEY ≠ ("cookie_" ++ TOKEN_KEY) := Ne.symm (cookie_prefix_ne TOKEN_KEY)
  have hl : ((setToken "" s).ls.put ("cookie_" ++ TOKEN_KEY) "") TOKEN_KEY = some "" := by
    rw [StoreMap.put_ne _ ("cookie_" ++ TOKEN_KEY) "" TOKEN_KEY hck]
    exact setToken_ls_token "" s
  simp [truthyStr, hl]

/-- The value a `getCookie` returns is a function of the three reads it
makes: the jar entry, the mirror and the legacy key. -/
theorem getCookie_fst_eq (k : String) (s1 s2 : BrowserState)
    (h1 : s1.jar k = s2.jar k) (h2 : s1.ls ("cookie_" ++ k) = s2.ls ("cookie_" ++ k))
    (h3 : s1.ls k = s2.ls k) :
    (getCookie k s1).1 = (getCookie k s2).1 := by
  unfold getCookie
  rw [h1, h2, h3]
  cases hj : s2.jar k with
  | some raw => cases hd : decodeURIComponent raw <;> simp [hd]
  | none =>
    cases hm : s2.ls ("cookie_" ++ k) with
    | some stored => by_cases hs : stored = "" <;> simp [hm, hs]
    | none => simp [hm]

/-- No `getCookie` path writes the unprefixed key: the legacy slot reads
the same before and after. -/
theorem getCookie_snd_ls_self (k : String) (s : BrowserState) :
    ((getCookie k s).2).ls k = s.ls k := by
  have hck : k ≠ ("cookie_" ++ k) := Ne.symm (cookie_prefix_ne k)
  have hput : ∀ (m : StoreMap) (w : String), m.put ("cookie_" ++ k) w k = m k :=
    fun m w => StoreMap.put_ne m ("cookie_" ++ k) w k hck
  unfold getCookie setCookie
  cases hj : s.jar k with
  | some raw =>
    cases hd : decodeURIComponent raw with
    | some v => simp [hd, hput]
    | none => simp [hd]
  | none =>
    cases hm : s.ls ("cookie_" ++ k) with
    | some stored => by_cases hs : stored = "" <;> simp [hm, hs, hput]
    | none => simp [hm]

/-- The value `getToken` returns, as a function of the cookie probe's value
and the raw localStorage token slot. -/
theorem getTokenOp_fst_formula (nowMs : ℤ) (s : BrowserState) :
    (getTokenOp nowMs s).1 =
      (match (if truthyStr (getCookie TOKEN_KEY s).1
          then (getCookie TOKEN_KEY s).1 else s.ls TOKEN_KEY) with
       | some t => if t ≠ "" ∧ isTokenExpired t nowMs then none else some t
       | none => none) := by
  simp only [getTokenOp, getCookie_snd_ls_self TOKEN_KEY s]
  rcases hg : (getCookie TOKEN_KEY s).1 with _ | t
  · simp only [hg, truthyStr, Bool.false_eq_true, if_false]
    rcases hl : s.ls TOKEN_KEY with _ | t1
    · simp
    · by_cases h1 : t1 = "" <;>
        by_cases hexp : t1 ≠ "" ∧ isTokenExpired t1 nowMs <;> simp_all
  · by_cases ht : t = ""
    · subst ht
      simp only [hg, truthyStr]
      simp only [ne_eq, not_true_eq_false, decide_False, Bool.false_eq_true, if_false]
      rcases hl : s.ls TOKEN_KEY with _ | t1
      · simp
      · by_cases h1 : t1 = "" <;>
          by_cases hexp : t1 ≠ "" ∧ isTokenExpired t1 nowMs <;> simp_all
    · simp only [hg, truthyStr, ne_eq, ht, not_false_eq_true, decide_True, if_true]
      by_cases hexp : t ≠ "" ∧ isTokenExpired t nowMs <;> simp_all

/-- The value `getToken` returns depends only on the jar entry, the mirror
and the legacy slot of the token key. -/
theorem getTokenOp_fst_eq (nowMs : ℤ) (s1 s2 : BrowserState)
    (h1 : s1.jar TOKEN_KEY = s2.jar TOKEN_KEY)
    (h2 : s1.ls ("cookie_" ++ TOKEN_KEY) = s2.ls ("cookie_" ++ TOKEN_KEY))
    (h3 : s1.ls TOKEN_KEY = s2.ls TOKEN_KEY) :
    (getTokenOp nowMs s1).1 = (getTokenOp nowMs s2).1 := by
  rw [getTokenOp_fst_formula, getTokenOp_fst_formula,
    getCookie_fst_eq TOKEN_KEY s1 s2 h1 h2 h3, h3]

/-- The value of `isAuthenticated` is a function of the value of `getToken`. -/
theorem isAuthenticatedOp_fst_eq (nowMs : ℤ) (s1 s2 : BrowserState)
    (hg : (getTokenOp nowMs s1).1 = (getTokenOp nowMs s2).1) :
    (isAuthenticatedOp nowMs s1).1 = (isAuthenticatedOp nowMs s2).1 := by
  unfold isAuthenticatedOp
  rcases hx : (getTokenOp nowMs s1).1 with _ | t <;>
    rcases hy : (getTokenOp nowMs s2).1 with _ | u
  · simp [hx, hy]
  · rw [hx, hy] at hg
    exact absurd hg (by simp)
  · rw [hx, hy] at hg
    exact absurd hg (by simp)
  · rw [hx, hy] at hg
    injection hg with ht
    subst ht
    by_cases ha : t = "" <;> by_cases hb : isTokenExpired t nowMs <;>
      simp [hx, hy, ha, hb]

/-!
## Concrete tokens for witnesses

`tokGood` carries the payload segment `base64url('\x7b"exp":99999999999\x7d')`
(an `exp` far in the future), `tokPast` the payload
`base64url('\x7b"exp":1000000000\x7d')` (September 2001), and `tokObjExp`
the payload `base64url('\x7b"exp":\x7b\x7d\x7d')` (an object-valued `exp`). -/

def tokGood : String := "x.eyJleHAiOjk5OTk5OTk5OTk5fQ.y"
def tokPast : String := "x.eyJleHAiOjEwMDAwMDAwMDB9.y"
def tokObjExp : String := "x.eyJleHAiOnt9fQ.y"

def emptyState : BrowserState := ⟨StoreMap.emp, StoreMap.emp⟩

/-!
## The claims -/

/-- C1: for every token whose decoded claims contain a numeric `exp`, the
credential is valid exactly when `now + 60 s < exp`: immediately after
`setToken`, `isAuthenticated()` is true iff `exp` (seconds) exceeds the
current time (milliseconds) by more than the 60-second skew buffer. -/
theorem claim_C1_auth_valid_iff_exp_beyond_skew (s : BrowserState) (t : String) (j : Json)
    (e : ℚ) (nowMs : ℤ) (hnow : 0 ≤ nowMs)
    (hd : decodeToken t = some j) (he : jsGetField j "exp" = some (Json.num e)) :
    ((isAuthenticatedOp nowMs (setToken t s)).1 = true ↔ (nowMs : ℚ) / 1000 + 60 < e) := by
  have ht : t ≠ "" := decodeToken_ne_empty t j hd
  rw [isAuthenticatedOp_setToken s t nowMs ht, isTokenExpired_num t j e nowMs hd he]
  have hq : (0 : ℚ) ≤ (nowMs : ℚ) := by exact_mod_cast hnow
  simp only [Bool.not_eq_true', Bool.or_eq_false_iff, decide_eq_false_iff_not]
  constructor
  · rintro ⟨h0, hle⟩
    push_neg at hle
    linarith
  · intro h
    have he0 : (0 : ℚ) < e := by linarith
    exact ⟨by linarith, by push_neg; linarith⟩

/-- C2: a token whose numeric `exp` is at or before `now + 60 s` makes
`getToken()` return absent and clears the token, its mirror and its cached
expiry from both backends, so a second `getToken()` is also absent and a
no-op; an unexpired token is returned raw and unchanged. -/
theorem claim_C2_expired_getToken_clears :
    (∀ (s : BrowserState) (t : String) (j : Json) (e : ℚ) (nowMs : ℤ),
      decodeToken t = some j → jsGetField j "exp" = some (Json.num e) →
      e ≤ (nowMs : ℚ) / 1000 + 60 →
      (getTokenOp nowMs (setToken t s)).1 = none ∧
      ((getTokenOp nowMs (setToken t s)).2.jar TOKEN_KEY = none ∧
       (getTokenOp nowMs (setToken t s)).2.ls TOKEN_KEY = none ∧
       (getTokenOp nowMs (setToken t s)).2.ls ("cookie_" ++ TOKEN_KEY) = none ∧
       (getTokenOp nowMs (setToken t s)).2.ls TOKEN_EXPIRY_KEY = none) ∧
      getTokenOp nowMs ((getTokenOp nowMs (setToken t s)).2)
        = (none, (getTokenOp nowMs (setToken t s)).2)) ∧
    (∀ (s : BrowserState) (t : String) (j : Json) (e : ℚ) (nowMs : ℤ),
      0 ≤ nowMs →
      decodeToken t = some j → jsGetField j "exp" = some (Json.num e) →
      (nowMs : ℚ) / 1000 + 60 < e →
      (getTokenOp nowMs (setToken t s)).1 = some t) := by
  constructor
  · intro s t j e nowMs hd he hpast
    have ht : t ≠ "" := decodeToken_ne_empty t j hd
    have hexp : isTokenExpired t nowMs = true := by
      rw [isTokenExpired_num t j e nowMs hd he]
      have : e * 1000 ≤ (nowMs : ℚ) + 60000 := by linarith
      simp [this]
    rw [getTokenOp_setToken_steps s t nowMs ht, hexp]
    obtain ⟨c1, c2, c3, c4⟩ := removeToken_cleared
      { setToken t s with ls := (setToken t s).ls.put ("cookie_" ++ TOKEN_KEY) t }
    refine ⟨by simp, ⟨by simpa using c1, by simpa using c2, by simpa using c3,
      by simpa using c4⟩, ?_⟩
    simpa using getTokenOp_absent nowMs _ c1 c3 c2
  · intro s t j e nowMs hnow hd he hfut
    have ht : t ≠ "" := decodeToken_ne_empty t j hd
    have hq : (0 : ℚ) ≤ (nowMs : ℚ) := by exact_mod_cast hnow
    have hexp : isTokenExpired t nowMs = false := by
      rw [isTokenExpired_num t j e nowMs hd he]
      have h1 : e ≠ 0 := by intro h; rw [h] at hfut; linarith
      have h2 : ¬ e * 1000 ≤ (nowMs : ℚ) + 60000 := by push_neg; linarith
      simp [h1, h2]
    rw [getTokenOp_setToken_steps s t nowMs ht, hexp]
    simp

/-- C4: the round trip — `setToken t` then `getToken()` returns exactly `t`
for every decodable token whose `exp` is more than 60 s in the future (the
raw string survives the cookie encode/decode and the fallback chain). -/
theorem claim_C4_roundtrip_setToken_getToken (s : BrowserState) (t : String) (j : Json)
    (e : ℚ) (nowMs : ℤ) (hnow : 0 ≤ nowMs)
    (hd : decodeToken t = some j) (he : jsGetField j "exp" = some (Json.num e))
    (hfut : (nowMs : ℚ) / 1000 + 60 < e) :
    (getTokenOp nowMs (setToken t s)).1 = some t := by
  have ht : t ≠ "" := decodeToken_ne_empty t j hd
  have hq : (0 : ℚ) ≤ (nowMs : ℚ) := by exact_mod_cast hnow
  have hexp : isTokenExpired t nowMs = false := by
    rw [isTokenExpired_num t j e nowMs hd he]
    have h1 : e ≠ 0 := by intro h; rw [h] at hfut; linarith
    have h2 : ¬ e * 1000 ≤ (nowMs : ℚ) + 60000 := by push_neg; linarith
    simp [h1, h2]
  rw [getTokenOp_setToken_steps s t nowMs ht, hexp]
  simp

theorem claim_C1_witness :
    (isAuthenticatedOp 1700000000000 (setToken tokGood emptyState)).1 = true := by
  have h := claim_C1_auth_valid_iff_exp_beyond_skew emptyState tokGood
    (Json.obj [("exp", Json.num 99999999999)]) 99999999999 1700000000000
    (by decide) (by rfl) (by rfl)
  rw [h]
  norm_num

theorem claim_C2_witness :
    (getTokenOp 1700000000000 (setToken tokPast emptyState)).1 = none ∧
    (getTokenOp 1700000000000 (setToken tokPast emptyState)).2.ls TOKEN_KEY = none ∧
    (getTokenOp 1700000000000 (setToken tokGood emptyState)).1 = some tokGood := by
  have h1 := (claim_C2_expired_getToken_clears.1 emptyState tokPast
    (Json.obj [("exp", Json.num 1000000000)]) 1000000000 1700000000000
    (by rfl) (by rfl) (by norm_num))
  have h2 := claim_C2_expired_getToken_clears.2 emptyState tokGood
    (Json.obj [("exp", Json.num 99999999999)]) 99999999999 1700000000000
    (by decide) (by rfl) (by rfl) (by norm_num)
  exact ⟨h1.1, h1.2.1.2.1, h2⟩

theorem claim_C4_witness :
    (getTokenOp 1700000000000 (setToken tokGood emptyState)).1 = some tokGood := by
  exact claim_C4_roundtrip_setToken_getToken emptyState tokGood
    (Json.obj [("exp", Json.num 99999999999)]) 99999999999 1700000000000
    (by decide) (by rfl) (by rfl) (by norm_num)

/-- C3 counterexample: `tokObjExp` decodes to a payload whose `exp` is an
object — not a numeric `exp` claim, so the token falls under C3's
quantifier — yet after `setToken` the raw token is stored and
`isAuthenticated()` returns `true`, not `false`: `(\x7b\x7d) * 1000` is
`NaN` and `NaN <= now + 60000` is false, so the token never expires. -/
theorem claim_C3_counterexample :
    decodeToken tokObjExp = some (Json.obj [("exp", Json.obj [])]) ∧
    (setToken tokObjExp emptyState).ls TOKEN_KEY = some tokObjExp ∧
    (isAuthenticatedOp 1700000000000 (setToken tokObjExp emptyState)).1 = true := by
  refine ⟨rfl, by decide, by decide⟩

/-- C3 (amended): for every token that fails to decode (malformed segment,
invalid base64url, invalid JSON) or whose decoded payload lacks an `exp`
member or has a falsy one (`0`, `""`, `false`, `null`), `setToken` still
stores the raw token, `isAuthenticated()` returns `false`, and no
exception escapes (`decodeToken` catches every decode error).  A decodable
payload with a truthy non-numeric `exp` is excluded: the code coerces it
with `exp * 1000`, which can leave the token treated as valid. -/
theorem claim_C3_amended_fail_closed (t : String) (nowMs : ℤ) (s : BrowserState)
    (h : tokenExpTruthy t = false) :
    (setToken t s).ls TOKEN_KEY = some t ∧
    (isAuthenticatedOp nowMs (setToken t s)).1 = false := by
  refine ⟨setToken_ls_token t s, ?_⟩
  by_cases ht : t = ""
  · subst ht
    exact isAuthenticatedOp_setToken_empty s nowMs
  · rw [isAuthenticatedOp_setToken s t nowMs ht,
      isTokenExpired_of_not_expTruthy t nowMs h]
    rfl

theorem claim_C3_witness :
    (setToken "not.a.jwt" emptyState).ls TOKEN_KEY = some "not.a.jwt" ∧
    (isAuthenticatedOp 1700000000000 (setToken "not.a.jwt" emptyState)).1 = false :=
  claim_C3_amended_fail_closed "not.a.jwt" 1700000000000 emptyState (by decide)

/-- C5 counterexample: an (empty-string) value present only in the
local-only mirror is not returned and not restored to the cookie backend —
`getCookie` treats the falsy `""` as absent, against the claim's promise
for "every value present only in the local-only mirror". -/
theorem claim_C5_counterexample :
    (StoreMap.emp.put ("cookie_" ++ "k") "") ("cookie_" ++ "k") = some "" ∧
    (getCookie "k" ⟨StoreMap.emp, StoreMap.emp.put ("cookie_" ++ "k") ""⟩).1 = none ∧
    (getCookie "k" ⟨StoreMap.emp, StoreMap.emp.put ("cookie_" ++ "k") ""⟩).2.jar "k"
      = none := by
  refine ⟨by decide, by decide, by decide⟩

/-- C5 (amended): cross-store repair holds with the provision that the
restore direction requires a non-empty mirror value: a value present in the
network-visible backend is returned and synced into the local mirror; a
non-empty value present only in the local mirror is returned and restored
into the cookie jar; in both cases both backends afterwards hold the value
(the jar entry decoding back to it). -/
theorem claim_C5_amended_cross_store_repair :
    (∀ (k v : String) (s : BrowserState),
      s.jar k = some (encodeURIComponent v) → s.ls ("cookie_" ++ k) = none →
      (getCookie k s).1 = some v ∧
      (getCookie k s).2.ls ("cookie_" ++ k) = some v ∧
      (getCookie k s).2.jar k = some (encodeURIComponent v) ∧
      decodeURIComponent (encodeURIComponent v) = some v) ∧
    (∀ (k v : String) (s : BrowserState),
      v ≠ "" → s.jar k = none → s.ls ("cookie_" ++ k) = some v →
      (getCookie k s).1 = some v ∧
      (getCookie k s).2.jar k = some (encodeURIComponent v) ∧
      (getCookie k s).2.ls ("cookie_" ++ k) = some v ∧
      decodeURIComponent (encodeURIComponent v) = some v) := by
  constructor
  · intro k v s hjar _
    rw [getCookie_jar_encode k v s hjar]
    exact ⟨rfl, StoreMap.put_eq _ _ _, hjar, decodeURIComponent_encodeURIComponent v⟩
  · intro k v s hv hjar hm
    rw [getCookie_mirror_restore k v s hv hjar hm]
    refine ⟨rfl, StoreMap.put_eq _ _ _, StoreMap.put_eq _ _ _,
      decodeURIComponent_encodeURIComponent v⟩

theorem claim_C5_witness :
    (getCookie "k" ⟨StoreMap.emp.put "k" (encodeURIComponent "val"), StoreMap.emp⟩).1
      = some "val" ∧
    (getCookie "k" ⟨StoreMap.emp.put "k" (encodeURIComponent "val"),
      StoreMap.emp⟩).2.ls ("cookie_" ++ "k") = some "val" ∧
    (getCookie "k" ⟨StoreMap.emp, StoreMap.emp.put ("cookie_" ++ "k") "val"⟩).2.jar "k"
      = some (encodeURIComponent "val") := by
  have h1 := claim_C5_amended_cross_store_repair.1 "k" "val"
    ⟨StoreMap.emp.put "k" (encodeURIComponent "val"), StoreMap.emp⟩ (by decide) (by decide)
  have h2 := claim_C5_amended_cross_store_repair.2 "k" "val"
    ⟨StoreMap.emp, StoreMap.emp.put ("cookie_" ++ "k") "val"⟩ (by decide) (by decide)
    (by decide)
  exact ⟨h1.1, h1.2.1, h2.2.1⟩

/-- C6 counterexample: the legacy unprefixed probe returns the value but
leaves both backends untouched — the claim that every successful read path
attempts to leave both backends holding the value fails on it. -/
theorem claim_C6_counterexample :
    (getCookie "k" ⟨StoreMap.emp, StoreMap.emp.put "k" "tok"⟩).1 = some "tok" ∧
    (getCookie "k" ⟨StoreMap.emp, StoreMap.emp.put "k" "tok"⟩).2.jar "k" = none ∧
    (getCookie "k" ⟨StoreMap.emp, StoreMap.emp.put "k" "tok"⟩).2.ls ("cookie_" ++ "k")
      = none := by
  refine ⟨by decide, by decide, by decide⟩

/-- C6 (amended): the cookie-jar read path syncs the local mirror and the
mirror read path restores the cookie jar (either way the retrieved value is
returned, resync failure notwithstanding), but the legacy unprefixed path
returns the value with no resync of either backend. -/
theorem claim_C6_amended_read_paths :
    (∀ (k v : String) (s : BrowserState),
      s.jar k = some (encodeURIComponent v) →
      (getCookie k s).1 = some v ∧ (getCookie k s).2.ls ("cookie_" ++ k) = some v ∧
      (getCookie k s).2.jar k = some (encodeURIComponent v)) ∧
    (∀ (k v : String) (s : BrowserState),
      v ≠ "" → s.jar k = none → s.ls ("cookie_" ++ k) = some v →
      (getCookie k s).1 = some v ∧ (getCookie k s).2.jar k = some (encodeURIComponent v) ∧
      (getCookie k s).2.ls ("cookie_" ++ k) = some v) ∧
    (∀ (k v : String) (s : BrowserState),
      s.jar k = none → truthyStr (s.ls ("cookie_" ++ k)) = false → s.ls k = some v →
      getCookie k s = (some v, s)) := by
  refine ⟨?_, ?_, ?_⟩
  · intro k v s hjar
    rw [getCookie_jar_encode k v s hjar]
    exact ⟨rfl, StoreMap.put_eq _ _ _, hjar⟩
  · intro k v s hv hjar hm
    rw [getCookie_mirror_restore k v s hv hjar hm]
    exact ⟨rfl, StoreMap.put_eq _ _ _, StoreMap.put_eq _ _ _⟩
  · intro k v s hjar hm hl
    exact getCookie_legacy k v s hjar hm hl

theorem claim_C6_witness :
    (getCookie "k" ⟨StoreMap.emp.put "k" (encodeURIComponent "w"), StoreMap.emp⟩).1
      = some "w" ∧
    getCookie "k" ⟨StoreMap.emp, StoreMap.emp.put "k" "legacy"⟩
      = (some "legacy", ⟨StoreMap.emp, StoreMap.emp.put "k" "legacy"⟩) := by
  have h1 := claim_C6_amended_read_paths.1 "k" "w"
    ⟨StoreMap.emp.put "k" (encodeURIComponent "w"), StoreMap.emp⟩ (by decide)
  have h3 := claim_C6_amended_read_paths.2.2 "k" "legacy"
    ⟨StoreMap.emp, StoreMap.emp.put "k" "legacy"⟩ (by decide) (by decide) (by decide)
  exact ⟨h1.1, h3⟩

/-- C7: `getToken()` and `isAuthenticated()` are independent of the
`auth_token_expiry` cache: two states agreeing on the cookie jar and on
every localStorage key other than `auth_token_expiry` yield identical
results from both calls — the validity checks re-decode the raw token and
never read the cached expiry `setToken` writes. -/
theorem claim_C7_expiry_cache_never_read (nowMs : ℤ) (s1 s2 : BrowserState)
    (hjar : s1.jar = s2.jar)
    (hls : ∀ k, k ≠ TOKEN_EXPIRY_KEY → s1.ls k = s2.ls k) :
    (getTokenOp nowMs s1).1 = (getTokenOp nowMs s2).1 ∧
    (isAuthenticatedOp nowMs s1).1 = (isAuthenticatedOp nowMs s2).1 := by
  have h1 : s1.jar TOKEN_KEY = s2.jar TOKEN_KEY := by rw [hjar]
  have h2 := hls ("cookie_" ++ TOKEN_KEY) (by decide)
  have h3 := hls TOKEN_KEY (by decide)
  have hg := getTokenOp_fst_eq nowMs s1 s2 h1 h2 h3
  exact ⟨hg, isAuthenticatedOp_fst_eq nowMs s1 s2 hg⟩

theorem claim_C7_witness :
    ((getTokenOp 1700000000000 (setToken tokGood emptyState)).1
      = (getTokenOp 1700000000000
          { setToken tokGood emptyState with
            ls := (setToken tokGood emptyState).ls.put TOKEN_EXPIRY_KEY "0" }).1) ∧
    ((isAuthenticatedOp 1700000000000 (setToken tokGood emptyState)).1
      = (isAuthenticatedOp 1700000000000
          { setToken tokGood emptyState with
            ls := (setToken tokGood emptyState).ls.put TOKEN_EXPIRY_KEY "0" }).1) :=
  claim_C7_expiry_cache_never_read 1700000000000 (setToken tokGood emptyState)
    { setToken tokGood emptyState with
      ls := (setToken tokGood emptyState).ls.put TOKEN_EXPIRY_KEY "0" }
    rfl
    (fun k hk => (StoreMap.put_ne (setToken tokGood emptyState).ls TOKEN_EXPIRY_KEY "0" k hk).symm)

/-- C8: `getNetworkUnit()` returns a stored `"Mbps"` or `"MB/s"` verbatim
and the default `"MB/s"` for any other stored value (including the empty
string) or when nothing is stored. -/
theorem claim_C8_network_unit_validation :
    (∀ (v : String) (s : BrowserState),
      (getNetworkUnitOp (setPreference NETWORK_UNIT_KEY v s)).1
        = if v = "Mbps" ∨ v = "MB/s" then v else "MB/s") ∧
    (∀ s : BrowserState, s.jar NETWORK_UNIT_KEY = none →
      s.ls ("cookie_" ++ NETWORK_UNIT_KEY) = none → s.ls NETWORK_UNIT_KEY = none →
      (getNetworkUnitOp s).1 = "MB/s") := by
  constructor
  · intro v s
    have h := getPreference_setPreference NETWORK_UNIT_KEY "MB/s" v s
    unfold getNetworkUnitOp
    by_cases hv : v = ""
    · subst hv
      rw [if_pos rfl] at h
      simp [h]
    · rw [if_neg hv] at h
      simp [h]
  · intro s h1 h2 h3
    unfold getNetworkUnitOp
    rw [getPreference_absent NETWORK_UNIT_KEY "MB/s" s h1 h2 h3]
    simp

theorem claim_C8_witness :
    (getNetworkUnitOp (setPreference NETWORK_UNIT_KEY "xyz" emptyState)).1 = "MB/s" ∧
    (getNetworkUnitOp (setPreference NETWORK_UNIT_KEY "" emptyState)).1 = "MB/s" ∧
    (getNetworkUnitOp (setPreference NETWORK_UNIT_KEY "Mbps" emptyState)).1 = "Mbps" ∧
    (getNetworkUnitOp emptyState).1 = "MB/s" := by
  have h1 := claim_C8_network_unit_validation.1 "xyz" emptyState
  have h2 := claim_C8_network_unit_validation.1 "" emptyState
  have h3 := claim_C8_network_unit_validation.1 "Mbps" emptyState
  have h4 := claim_C8_network_unit_validation.2 emptyState (by decide) (by decide) (by decide)
  simp only [h1, h2, h3]
  refine ⟨by decide, by decide, by decide, h4⟩

/-- C9: with no timezone preference stored in either backend,
`getTimezone()` returns the environment-introspected timezone (`"UTC"` when
introspection fails or reports nothing), leaves the state unchanged, and a
second fresh call introspects again with the same outcome. -/
theorem claim_C9_timezone_not_persisted (envTz : Option String) (s : BrowserState)
    (h1 : s.jar TIMEZONE_KEY = none) (h2 : s.ls ("cookie_" ++ TIMEZONE_KEY) = none)
    (h3 : s.ls TIMEZONE_KEY = none) :
    getTimezoneOp envTz s = (detectLocalTimezone envTz, s) ∧
    getTimezoneOp envTz ((getTimezoneOp envTz s).2) = (detectLocalTimezone envTz, s) ∧
    detectLocalTimezone (some "Europe/Berlin") = "Europe/Berlin" ∧
    detectLocalTimezone none = "UTC" ∧ detectLocalTimezone (some "") = "UTC" := by
  have hmain : getTimezoneOp envTz s = (detectLocalTimezone envTz, s) := by
    unfold getTimezoneOp
    rw [getPreference_absent TIMEZONE_KEY "" s h1 h2 h3]
    simp
  refine ⟨hmain, ?_, rfl, rfl, rfl⟩
  rw [hmain, hmain]

theorem claim_C9_witness :
    getTimezoneOp (some "Europe/Berlin") emptyState = ("Europe/Berlin", emptyState) := by
  have h := claim_C9_timezone_not_persisted (some "Europe/Berlin") emptyState
    (by decide) (by decide) (by decide)
  rw [h.1, h.2.2.1]

/-- C10: `removeToken` is idempotent and total — a second call is a no-op
on the store contents, and afterwards the token, its mirror, its legacy
copy and its cached expiry are absent from both backends. -/
theorem claim_C10_removeToken_idempotent (s : BrowserState) :
    removeToken (removeToken s) = removeToken s ∧
    (removeToken s).jar TOKEN_KEY = none ∧
    (removeToken s).ls TOKEN_KEY = none ∧
    (removeToken s).ls ("cookie_" ++ TOKEN_KEY) = none ∧
    (removeToken s).ls TOKEN_EXPIRY_KEY = none := by
  refine ⟨?_, removeToken_cleared s⟩
  unfold removeToken removeCookie
  refine congrArg₂ BrowserState.mk ?_ ?_
  · funext k'
    by_cases h : k' = TOKEN_KEY <;> simp [StoreMap.del, h]
  · funext k'
    by_cases ha : k' = TOKEN_EXPIRY_KEY
    · simp [StoreMap.del, ha]
    · by_cases hb : k' = TOKEN_KEY
      · simp [StoreMap.del, ha, hb, TOKEN_KEY, TOKEN_EXPIRY_KEY]
      · by_cases hc : k' = "cookie_" ++ TOKEN_KEY <;>
          simp [StoreMap.del, ha, hb, hc]

end SparkMon
